import Mathlib

/-!
Verification of the Carousell listing parser and email-deliverability prober
(`karousell.py`) against its natural-language specification.

The development is a shallow embedding of the program:
* Python strings are Lean `String`s (with `List Char` as working representation);
  Python `str.strip`, `str.lower`, `str.endswith` are modelled on ASCII data,
  which is all the program's validated data ever contains.
* `json.loads` is modelled by a `Json` value type; the result of decoding is an
  explicit `Option Json` input to `parse` (`none` = `json.JSONDecodeError`).
* Python exceptions that the code does *not* catch are modelled with
  `Except Unit`; exceptions the code catches and converts to a result are
  folded into the returned value.
* The DNS and SMTP layers (`dns.resolver`, `smtplib`) are modelled by a
  `Network` record of oracles, so that theorems can quantify over every
  possible network behaviour.
* The fixed regular expressions of `FileParser` are modelled by specialised
  search functions with Python `re.search` leftmost-match semantics.
-/

/-- ASCII whitespace, as matched by Python `str.strip` and the regex class
`\s` (Unicode whitespace beyond ASCII is not modelled; no claim involves it). -/
def isPySpace (c : Char) : Bool :=
  c == ' ' || c == '\t' || c == '\n' || c == '\r' || c == '\x0b' || c == '\x0c'

/-- Python `str.strip` on a list of characters: drop whitespace from both ends. -/
def pyStripL (l : List Char) : List Char :=
  ((l.dropWhile isPySpace).reverse.dropWhile isPySpace).reverse

/-- Python `str.strip` on strings. -/
def pyStripS (s : String) : String := ⟨pyStripL s.toList⟩

/-- Python `str.lower`, modelled for ASCII letters (the only case-mapped
characters appearing in validated data). -/
def pyLowerS (s : String) : String := ⟨s.toList.map Char.toLower⟩

/-- Python `str.endswith`. -/
def pyEndsWith (s suffix : String) : Bool :=
  suffix.toList.isSuffixOf s.toList

-- --- Configuration constants of karousell.py ---

/-- `COMMON_EMAIL_DOMAINS = ["gmail.com"]`. -/
def COMMON_EMAIL_DOMAINS : List String := ["gmail.com"]

/-- `MAX_CONCURRENT_REQUESTS = 10`. -/
def MAX_CONCURRENT_REQUESTS : Nat := 10

-- --- Model of json.loads results ---

/-- A JSON value as produced by `json.loads`.  Numeric literals are modelled
as integers (no claim involves floating-point payloads). -/
inductive Json where
  | null
  | bool (b : Bool)
  | num (n : Int)
  | str (s : String)
  | arr (elems : List Json)
  | obj (entries : List (String × Json))

/-- Python truthiness of a decoded JSON value (`bool(v)`). -/
def jsonTruthy : Json → Bool
  | .null => false
  | .bool b => b
  | .num n => n != 0
  | .str s => s != ""
  | .arr l => !l.isEmpty
  | .obj kvs => !kvs.isEmpty

/-- Python truthiness of an `item.get(...)` result (`None` is falsy). -/
def jsonTruthyO : Option Json → Bool
  | none => false
  | some v => jsonTruthy v

mutual

/-- Python `repr` of a decoded JSON value (used by `str` on containers).
String quoting uses single quotes; escape sequences inside strings are not
modelled (no claim evaluates container text). -/
def pyRepr : Json → String
  | .null => "None"
  | .bool b => if b then "True" else "False"
  | .num n => toString n
  | .str s => "\x27" ++ s ++ "\x27"
  | .arr l => "[" ++ pyReprSeq l ++ "]"
  | .obj kvs => "\x7b" ++ pyReprObj kvs ++ "\x7d"

/-- Comma-separated `repr` of list elements. -/
def pyReprSeq : List Json → String
  | [] => ""
  | [v] => pyRepr v
  | v :: rest => pyRepr v ++ ", " ++ pyReprSeq rest

/-- Comma-separated `repr` of dict entries. -/
def pyReprObj : List (String × Json) → String
  | [] => ""
  | [(k, v)] => "\x27" ++ k ++ "\x27: " ++ pyRepr v
  | (k, v) :: rest => "\x27" ++ k ++ "\x27: " ++ pyRepr v ++ ", " ++ pyReprObj rest

end

/-- Python `str(v)` for a decoded JSON value: identity on strings, `repr`
otherwise. -/
def pyStrOfJson : Json → String
  | .str s => s
  | v => pyRepr v

/-- `data.values()`: succeeds only on a dict; on any other value Python raises
`AttributeError`, which `FileParser.parse` does not catch. -/
def pyValues : Json → Except Unit (List Json)
  | .obj kvs => .ok (kvs.map (·.2))
  | _ => .error ()

/-- `item.get(key)`: succeeds only on a dict (returning `None` for a missing
key); on any other value Python raises `AttributeError`. -/
def pyGet (item : Json) (key : String) : Except Unit (Option Json) :=
  match item with
  | .obj kvs => .ok ((kvs.find? (fun kv => kv.1 == key)).map (·.2))
  | _ => .error ()

/-- `v.strip()` on a field value: only defined on strings; a truthy non-string
raises `AttributeError` (no `.strip` method), which is not caught. -/
def pyAsString : Option Json → Except Unit String
  | some (.str s) => .ok s
  | _ => .error ()

-- --- Listing (karousell.py lines 95-105) ---

/-- `Listing` dataclass: photo, title, price, link, seller. -/
structure Listing where
  photo : String
  title : String
  price : String
  link : String
  seller : String
deriving DecidableEq, Inhabited, Repr

/-- `Listing.email`: `f"{seller.lower()}@{COMMON_EMAIL_DOMAINS[0]}"`. -/
def Listing.email (l : Listing) : String :=
  pyLowerS l.seller ++ "@" ++ COMMON_EMAIL_DOMAINS.getD 0 ""

-- --- Seller validation (karousell.py lines 206-208) ---

/-- A character of the handle class `[A-Za-z0-9_.-]`. -/
def isHandleChar (c : Char) : Bool :=
  ('A' ≤ c && c ≤ 'Z') || ('a' ≤ c && c ≤ 'z') || ('0' ≤ c && c ≤ '9') ||
    c == '_' || c == '.' || c == '-'

/-- `re.fullmatch(r"[A-Za-z0-9_.-]{4,30}", s)` as a boolean. -/
def fullmatchHandle (s : String) : Bool :=
  s.toList.all isHandleChar && decide (4 ≤ s.toList.length) &&
    decide (s.toList.length ≤ 30)

/-- `FileParser.is_valid_seller` on a present-or-absent string
(`bool(seller) and bool(re.fullmatch(r"[A-Za-z0-9_.-]{4,30}", seller))`). -/
def is_valid_seller : Option String → Bool
  | none => false
  | some s => s != "" && fullmatchHandle s

/-- `is_valid_seller` applied to a raw JSON field: falsy values give `False`;
a truthy non-string raises `TypeError` inside `re.fullmatch`, which is not
caught. -/
def is_valid_seller_json : Option Json → Except Unit Bool
  | none => .ok false
  | some v =>
    if jsonTruthy v then
      match v with
      | .str s => .ok (fullmatchHandle s)
      | _ => .error ()
    else .ok false

-- --- Regex helpers for the block format (karousell.py lines 183-204) ---

/-- `re.search` driver: try a pattern-specific matcher at every start
position, leftmost first (Python scans positions left to right). -/
def scanOption (f : List Char → Option (List Char)) : List Char → Option (List Char)
  | [] => f []
  | c :: rest =>
    match f (c :: rest) with
    | some g => some g
    | none => scanOption f rest

/-- Matcher for the tail `\s*(.+)` of a label pattern: greedy whitespace run,
then the group runs to the end of the line.  When everything after the label
is whitespace, backtracking yields a whitespace-only group (which the caller
strips to the empty string) provided some non-newline character remains. -/
def matchWsThenLine (rest : List Char) : Option (List Char) :=
  let ws := rest.takeWhile isPySpace
  let tail := rest.drop ws.length
  match tail with
  | [] =>
    match ws.reverse.dropWhile (fun c => c == '\n') with
    | [] => none
    | c :: _ => some [c]
  | _ => some (tail.takeWhile (fun c => c != '\n'))

/-- One attempt of `label\s*(.+)` at a fixed position. -/
def tryLabelLine (label : List Char) (l : List Char) : Option (List Char) :=
  if label.isPrefixOf l then matchWsThenLine (l.drop label.length) else none

/-- `extract_value` for the patterns `🗂 Товар:\s*(.+)` and `💵 Цена:\s*(.+)`:
leftmost search, group 1 stripped. -/
def extractLabelLine (label : List Char) (text : List Char) : Option (List Char) :=
  (scanOption (tryLabelLine label) text).map pyStripL

/-- One attempt of `label\s*([A-Za-z0-9_.-]+)` at a fixed position (the
seller pattern): whitespace run, then a non-empty maximal handle-character
run. -/
def tryLabelHandle (label : List Char) (l : List Char) : Option (List Char) :=
  if label.isPrefixOf l then
    let rest := l.drop label.length
    let ws := rest.takeWhile isPySpace
    let tail := rest.drop ws.length
    let run := tail.takeWhile isHandleChar
    if run.isEmpty then none else some run
  else none

/-- The literal prefix of the photo pattern
`(https://media\.karousell\.com[^\s]+)`. -/
def mediaPrefixChars : List Char := "https://media.karousell.com".toList

/-- One attempt of the photo pattern at a fixed position: the media-host
prefix followed by a non-empty maximal non-whitespace run; the group is the
whole match. -/
def tryPhoto (l : List Char) : Option (List Char) :=
  if mediaPrefixChars.isPrefixOf l then
    let rest := l.drop mediaPrefixChars.length
    let run := rest.takeWhile (fun c => !isPySpace c)
    if run.isEmpty then none else some (mediaPrefixChars ++ run)
  else none

/-- The literal prefix of the link pattern
`\[🔗 Ссылка на товар\]\((https?://[^\)]+)\)`. -/
def linkLabelChars : List Char := "[🔗 Ссылка на товар](".toList

/-- One attempt of the link pattern at a fixed position: the markdown label,
then the group `https?://` followed by a non-empty maximal run of non-`)`
characters, then a closing `)`. -/
def tryLink (l : List Char) : Option (List Char) :=
  if linkLabelChars.isPrefixOf l then
    let rest := l.drop linkLabelChars.length
    let scheme :=
      if "https://".toList.isPrefixOf rest then some "https://".toList
      else if "http://".toList.isPrefixOf rest then some "http://".toList
      else none
    match scheme with
    | none => none
    | some sch =>
      let rest2 := rest.drop sch.length
      let run := rest2.takeWhile (fun c => c != ')')
      if run.isEmpty then none
      else
        match rest2.drop run.length with
        | ')' :: _ => some (sch ++ run)
        | _ => none
  else none

-- --- Block-format parsing (karousell.py lines 129-199) ---

/-- `FileParser._build_listing_from_block`: extract the five fields by
independent pattern search; emit a listing only when all five are present
and non-empty (Python truthiness of the already-stripped extracts) and the
seller passes `is_valid_seller`; the constructor strips each field again. -/
def build_listing_from_block (block : List Char) : Option Listing :=
  let photo := (scanOption tryPhoto block).map pyStripL
  let title := extractLabelLine "🗂 Товар:".toList block
  let price := extractLabelLine "💵 Цена:".toList block
  let link := (scanOption tryLink block).map pyStripL
  let seller := (scanOption (tryLabelHandle "👤 Продавец:".toList) block).map pyStripL
  match photo, title, price, link, seller with
  | some p, some t, some pr, some lk, some s =>
    if !p.isEmpty && !t.isEmpty && !pr.isEmpty && !lk.isEmpty && !s.isEmpty &&
        is_valid_seller (some ⟨s⟩) then
      some ⟨⟨pyStripL p⟩, ⟨pyStripL t⟩, ⟨pyStripL pr⟩, ⟨pyStripL lk⟩, ⟨pyStripL s⟩⟩
    else none
  | _, _, _, _, _ => none

/-- The split token of `re.split(r"🔸CAROUSELL", ...)` (a literal pattern). -/
def carousellSep : List Char := "🔸CAROUSELL".toList

/-- Worker for `re.split` on the literal delimiter: `acc` is the current
segment, reversed.  `fuel` bounds the number of consumed characters and is
instantiated with the input length (each step consumes at least one
character, so the zero-fuel arm is never reached); this keeps the recursion
structural and hence kernel-computable. -/
def splitCarousellGo : Nat → List Char → List Char → List (List Char)
  | _, acc, [] => [acc.reverse]
  | 0, acc, _ => [acc.reverse]
  | fuel + 1, acc, c :: rest =>
    if carousellSep.isPrefixOf (c :: rest) then
      acc.reverse :: splitCarousellGo fuel [] ((c :: rest).drop carousellSep.length)
    else
      splitCarousellGo fuel (c :: acc) rest

/-- `re.split(r"🔸CAROUSELL", file_content)`. -/
def splitCarousell (content : List Char) : List (List Char) :=
  splitCarousellGo content.length [] content

/-- `FileParser.parse_carousell_blocks`: split on the delimiter, strip each
segment, skip empties, build listings. -/
def parse_carousell_blocks (content : List Char) : List Listing :=
  (splitCarousell content).filterMap (fun block =>
    if (pyStripL block).isEmpty then none
    else build_listing_from_block (pyStripL block))

-- --- JSON-format parsing (karousell.py lines 145-168) ---

/-- Loop body of `FileParser.parse_carousell_json` over `data.values()`.
An item is skipped when its seller fails validation or any of the four other
fields is falsy; otherwise the fields are stripped (`price` via `str(...)`)
and a listing emitted.  `.get` on a non-dict item and `.strip()` on a truthy
non-string raise uncaught exceptions. -/
def parseItems : List Json → Except Unit (List Listing)
  | [] => .ok []
  | item :: rest =>
    match pyGet item "seller" with
    | .error e => .error e
    | .ok sellerField =>
      match is_valid_seller_json sellerField with
      | .error e => .error e
      | .ok false => parseItems rest
      | .ok true =>
        match pyGet item "img_url", pyGet item "adLink",
              pyGet item "title", pyGet item "price" with
        | .ok photoField, .ok linkField, .ok titleField, .ok priceField =>
          if jsonTruthyO photoField && jsonTruthyO linkField &&
              jsonTruthyO titleField && jsonTruthyO priceField then
            match pyAsString photoField with
            | .error e => .error e
            | .ok photo =>
              match pyAsString titleField with
              | .error e => .error e
              | .ok title =>
                match pyAsString linkField with
                | .error e => .error e
                | .ok link =>
                  match pyAsString sellerField with
                  | .error e => .error e
                  | .ok sellerStr =>
                    match parseItems rest with
                    | .error e => .error e
                    | .ok tail =>
                      .ok (⟨pyStripS photo, pyStripS title,
                            pyStripS (pyStrOfJson (priceField.getD .null)),
                            pyStripS link, pyStripS sellerStr⟩ :: tail)
          else parseItems rest
        | .error e, _, _, _ => .error e
        | _, .error e, _, _ => .error e
        | _, _, .error e, _ => .error e
        | _, _, _, .error e => .error e

/-- `FileParser.parse_carousell_json`. -/
def parse_carousell_json (data : Json) : Except Unit (List Listing) :=
  match pyValues data with
  | .error e => .error e
  | .ok items => parseItems items

-- --- Deduplication (karousell.py lines 170-181) ---

/-- The deduplication key `(listing.seller.lower(), listing.link)`. -/
def dedupKey (l : Listing) : String × String := (pyLowerS l.seller, l.link)

/-- Worker for `FileParser.deduplicate_listings`: `seen` is the set of keys
already emitted. -/
def dedupAux (seen : List (String × String)) : List Listing → List Listing
  | [] => []
  | x :: xs =>
    if dedupKey x ∈ seen then dedupAux seen xs
    else x :: dedupAux (dedupKey x :: seen) xs

/-- `FileParser.deduplicate_listings`: keep the first listing of each
`(seller lowercased, link)` key, in input order. -/
def deduplicate_listings (l : List Listing) : List Listing := dedupAux [] l

-- --- Top-level parse (karousell.py lines 114-127) ---

/-- The cleaning prefix of `FileParser.parse`:
`file_content.strip().replace("﻿", "")` (the replaced pattern is the
single BOM character, so the replacement deletes every occurrence). -/
def cleanContent (s : String) : List Char :=
  (pyStripL s.toList).filter (fun c => c != '﻿')

/-- `FileParser.parse`.  `decoded` is the outcome of `json.loads` on the
cleaned content: `none` models `json.JSONDecodeError` (the only exception the
function catches); `some data` a successful decode.  Uncaught exceptions from
`parse_carousell_json` propagate. -/
def parse (decoded : Option Json) (file_content : String) :
    Except Unit (List Listing × String) :=
  let cleaned := cleanContent file_content
  match decoded with
  | some data =>
    match parse_carousell_json data with
    | .error e => .error e
    | .ok listings =>
      if listings.isEmpty then
        .ok (deduplicate_listings (parse_carousell_blocks cleaned), "G6 Parser")
      else
        .ok (deduplicate_listings listings, "Atom Parser")
  | none =>
    .ok (deduplicate_listings (parse_carousell_blocks cleaned), "G6 Parser")

-- --- Model of the DNS and SMTP layers (external libraries) ---

/-- Outcome of one full SMTP conversation of `check_mailbox_exists`
(connect, `helo`, `mail`, `rcpt`, close): `exc` is an exception raised at any
of those steps (connection, timeout, protocol, including the closing `quit`);
`code c` is a clean conversation in which the `rcpt` command returned status
code `c`. -/
inductive SmtpOutcome where
  | exc
  | code (c : Nat)
deriving DecidableEq

/-- Behaviour of the network layers used by `check_mailbox_exists`:
`resolveMX domain` is `dns.resolver.resolve(domain, "MX")` (`none` = any
resolution exception, `some hosts` = the returned exchange hosts in order);
`session mx email` is the SMTP conversation with host `mx` probing recipient
`email`. -/
structure Network where
  resolveMX : String → Option (List String)
  session : String → String → SmtpOutcome

/-- `EmailVerifier.is_supported_domain`:
`any(email.endswith(f"@{domain}") for domain in COMMON_EMAIL_DOMAINS)`. -/
def is_supported_domain (email : String) : Bool :=
  COMMON_EMAIL_DOMAINS.any (fun domain => pyEndsWith email ("@" ++ domain))

/-- `email.split('@', 1)`: split at the first `@`; `none` when there is no
`@` (in which case the Python unpacking raises `ValueError`, caught by the
surrounding handler). -/
def splitFirstAt (s : String) : Option (String × String) :=
  let l := s.toList
  if '@' ∈ l then
    some (⟨l.takeWhile (fun c => c != '@')⟩,
          ⟨(l.dropWhile (fun c => c != '@')).tail⟩)
  else none

/-- The domain of an address in the sense of the specification: the part
after the last `@` (`none` when the address has no `@`). -/
def emailDomain (s : String) : Option String :=
  let r := s.toList.reverse
  if '@' ∈ r then some ⟨(r.takeWhile (fun c => c != '@')).reverse⟩ else none

/-- `EmailVerifier.check_mailbox_exists`: reject unsupported domains before
any network access; then resolve the MX record, take the first exchange,
run the SMTP conversation, and report `code == 250`; every caught exception
(DNS failure, empty record set, connection/timeout/protocol error) yields
`false`. -/
def check_mailbox_exists (net : Network) (email : String) : Bool :=
  if is_supported_domain email then
    match splitFirstAt email with
    | none => false
    | some (_, domain) =>
      match net.resolveMX domain with
      | none => false
      | some [] => false
      | some (mx :: _) =>
        match net.session mx email with
        | .exc => false
        | .code c => c == 250
  else false

-- --- EmailVerifier cache state and verify (karousell.py lines 33-68) ---

/-- The mutable state of `EmailVerifier`: `valid_emails` is the cache of
known-deliverable addresses, `new_valid_emails` the addresses discovered
since the last save (both Python sets, modelled as duplicate-free insertion
lists). -/
structure VerifierState where
  valid_emails : List String
  new_valid_emails : List String
deriving DecidableEq

/-- `email.strip().lower()` as performed by `EmailVerifier.verify`. -/
def normalizeEmail (email : String) : String := pyLowerS (pyStripS email)

/-- `EmailVerifier.verify`: answer `true` from the cache when the normalized
address is present; otherwise invoke `check_mailbox_exists` (under the
semaphore) and cache a positive result.  The third component counts how many
times the mailbox probe (`check_mailbox_exists`) was invoked by this call
(0 on a cache hit, 1 otherwise). -/
def verify (net : Network) (st : VerifierState) (email : String) :
    Bool × VerifierState × Nat :=
  let normalized := normalizeEmail email
  if normalized ∈ st.valid_emails then (true, st, 0)
  else
    let result := check_mailbox_exists net normalized
    if result then
      (true, ⟨st.valid_emails.insert normalized,
              st.new_valid_emails.insert normalized⟩, 1)
    else (false, st, 1)

-- --- TelegramBot.verify_all (karousell.py lines 263-282) ---

/-- One entry of the result list of `verify_all`: the dict
`listing / email / already_verified / valid`. -/
structure VRecord where
  listing : Listing
  email : String
  already_verified : Bool
  valid : Bool
deriving DecidableEq, Inhabited, Repr

/-- Run the scheduled `verify` coroutines one at a time in the order given by
the event loop, threading the verifier state; each executed task records its
position in the batch together with its boolean outcome.  (Each probe's
network phase runs in a worker thread, but the cache reads and writes of
`verify` happen on the event loop, so an execution is a sequence of whole
`verify` steps in some order.) -/
def execOrder (net : Network) : VerifierState → List (Nat × String) →
    List (Nat × Bool) × VerifierState
  | st, [] => ([], st)
  | st, (i, e) :: rest =>
    let r := verify net st e
    let tail := execOrder net r.2.1 rest
    ((i, r.1) :: tail.1, tail.2)

/-- `TelegramBot.verify_all`.  `schedule` is the order in which the event
loop happens to complete the scheduled `verify` tasks (positions into the
listing batch); `asyncio.gather` nevertheless reports results positionally.
Each output record pairs the i-th listing with its derived email, the
`already_verified` flag computed against the pre-batch cache, and the i-th
probe outcome. -/
def verify_all (net : Network) (st : VerifierState) (schedule : List Nat)
    (listings : List Listing) : List VRecord × VerifierState :=
  let emails := listings.map Listing.email
  let run := execOrder net st
    (schedule.filterMap (fun i => (emails.get? i).map (fun e => (i, e))))
  let results : Nat → Bool := fun i => ((run.1.lookup i).getD false)
  ((List.range listings.length).map (fun i =>
      let l := listings.getD i default
      ⟨l, l.email, l.email ∈ st.valid_emails, results i⟩),
   run.2)

-- --- Semaphore-bounded probing (karousell.py lines 33-38 and 58-68) ---

/-- Phase of one scheduled `verify` task of a batch: `waiting` before the
task reaches the semaphore (or answers from the cache); `network` while it
holds a semaphore slot and its `check_mailbox_exists` probe is in flight;
`done` after it returned. -/
inductive ProbePhase where
  | waiting
  | network
  | done
deriving DecidableEq

/-- Number of probes currently in their network phase. -/
def networkCount (phases : List ProbePhase) : Nat :=
  phases.countP (fun p => p == ProbePhase.network)

/-- Interleaving semantics of a batch of `verify` tasks sharing the
`asyncio.Semaphore(limit)` created in `EmailVerifier.__init__`: a waiting
task may enter its network phase only when fewer than `limit` probes hold a
slot (`async with self.semaphore`); a task in its network phase may finish
(releasing its slot); a waiting task whose email is answered from the cache
finishes without ever touching the semaphore. -/
inductive BatchStep (limit : Nat) : List ProbePhase → List ProbePhase → Prop
  | acquire (phases : List ProbePhase) (i : Nat)
      (h : phases.get? i = some .waiting)
      (hc : networkCount phases < limit) :
      BatchStep limit phases (phases.set i .network)
  | release (phases : List ProbePhase) (i : Nat)
      (h : phases.get? i = some .network) :
      BatchStep limit phases (phases.set i .done)
  | cacheHit (phases : List ProbePhase) (i : Nat)
      (h : phases.get? i = some .waiting) :
      BatchStep limit phases (phases.set i .done)

/-- States reachable by a batch of `n` scheduled `verify` tasks under the
semaphore of capacity `limit`, starting from all tasks waiting. -/
inductive BatchReachable (limit n : Nat) : List ProbePhase → Prop
  | init : BatchReachable limit n (List.replicate n .waiting)
  | step {phases phases' : List ProbePhase} :
      BatchReachable limit n phases → BatchStep limit phases phases' →
      BatchReachable limit n phases'

-- --- Concrete inputs used by witnesses and counterexamples ---

/-- A network double that accepts everything, used to witness that the
rejection of unsupported domains does not depend on the network. -/
def permissiveNet : Network :=
  ⟨fun _ => some ["mx.test."], fun _ _ => SmtpOutcome.code 250⟩

/-- A network double on which every probe fails at DNS resolution. -/
def deadNet : Network := ⟨fun _ => none, fun _ _ => SmtpOutcome.exc⟩

/-- A concrete listing used by witnesses and counterexamples. -/
def sampleListingA : Listing :=
  ⟨"https://media.karousell.com/a.jpg", "Chair", "$5", "https://x.test/a", "bob_1"⟩

/-- A second concrete listing with the same seller but a different link. -/
def sampleListingB : Listing :=
  ⟨"https://media.karousell.com/b.jpg", "Table", "$7", "https://x.test/b", "bob_1"⟩

/-- The example block of the specification, as written: a single line. -/
def c7SingleLine : String :=
  "🔸CAROUSELL 🗂 Товар: Lamp 💵 Цена: $10 [🔗 Ссылка на товар](https://x.test/1) 👤 Продавец: alice_99 https://media.karousell.com/img1.jpg"

/-- What the title pattern actually captures on the single-line block: the
rest of the line. -/
def c7TitleTail : String :=
  "Lamp 💵 Цена: $10 [🔗 Ссылка на товар](https://x.test/1) 👤 Продавец: alice_99 https://media.karousell.com/img1.jpg"

/-- What the price pattern actually captures on the single-line block. -/
def c7PriceTail : String :=
  "$10 [🔗 Ссылка на товар](https://x.test/1) 👤 Продавец: alice_99 https://media.karousell.com/img1.jpg"

/-- The example block with each labelled field on its own line. -/
def c7MultiLine : String :=
  "🔸CAROUSELL\n🗂 Товар: Lamp\n💵 Цена: $10\n[🔗 Ссылка на товар](https://x.test/1)\n👤 Продавец: alice_99\nhttps://media.karousell.com/img1.jpg"

/-- The structured item of the C3 counterexample: a valid seller, but a
whitespace-only `img_url`. -/
def c3BadInput : Json :=
  Json.obj [("a", Json.obj [("seller", Json.str "abcd"),
    ("img_url", Json.str " "), ("adLink", Json.str "https://x.test/ln"),
    ("title", Json.str "tt"), ("price", Json.num 5)])]

/-- Concrete block input for the C3 witness. -/
def c3WitnessInput : String :=
  "🔸CAROUSELL\n🗂 Товар: T\n💵 Цена: 9\n[🔗 Ссылка на товар](https://y.test/2)\n👤 Продавец: carl_9\nhttps://media.karousell.com/c.jpg"

/-- The listing parsed from the C3 witness input. -/
def c3WitnessListing : Listing :=
  ⟨"https://media.karousell.com/c.jpg", "T", "9", "https://y.test/2", "carl_9"⟩

-- --- Lemmas about Python strip ---

/-- Dropping leading whitespace is idempotent. -/
theorem dropWhile_space_idem (l : List Char) :
    (l.dropWhile isPySpace).dropWhile isPySpace = l.dropWhile isPySpace := by
  cases h : l.dropWhile isPySpace with
  | nil => simp
  | cons c rest =>
    have hh := List.head?_dropWhile_not isPySpace l
    rw [h] at hh
    simp only [List.head?_cons] at hh
    simp [List.dropWhile_cons, hh]

/-- `strip` is idempotent. -/
theorem pyStripL_idem (l : List Char) : pyStripL (pyStripL l) = pyStripL l := by
  simp only [pyStripL]
  set r := l.dropWhile isPySpace with hr
  set m := (r.reverse.dropWhile isPySpace).reverse with hm
  have hpref : m <+: r := by
    have hs : r.reverse.dropWhile isPySpace <:+ r.reverse := List.dropWhile_suffix _
    have h2 := hs.reverse
    rwa [List.reverse_reverse] at h2
  have hdm : m.dropWhile isPySpace = m := by
    cases hmc : m with
    | nil => rfl
    | cons c t =>
      obtain ⟨u, hu⟩ := hpref
      have hrh : r.head? = some c := by
        rw [← hu, hmc]; rfl
      have hh := List.head?_dropWhile_not isPySpace l
      rw [← hr, hrh] at hh
      simp only at hh
      simp [List.dropWhile_cons, hh]
  calc ((m.dropWhile isPySpace).reverse.dropWhile isPySpace).reverse
      = (m.reverse.dropWhile isPySpace).reverse := by rw [hdm]
    _ = ((r.reverse.dropWhile isPySpace).reverse.reverse.dropWhile isPySpace).reverse := by
        rw [← hm]
    _ = ((r.reverse.dropWhile isPySpace).dropWhile isPySpace).reverse := by
        rw [List.reverse_reverse]
    _ = (r.reverse.dropWhile isPySpace).reverse := by rw [dropWhile_space_idem]
    _ = m := by rw [← hm]

/-- `strip` is idempotent on strings. -/
theorem pyStripS_idem (s : String) : pyStripS (pyStripS s) = pyStripS s := by
  simp only [pyStripS]
  rw [show (⟨pyStripL s.toList⟩ : String).toList = pyStripL s.toList from rfl,
    pyStripL_idem]

/-- Handle characters are not whitespace. -/
theorem handle_not_space (c : Char) (h : isHandleChar c = true) :
    isPySpace c = false := by
  cases hs : isPySpace c with
  | false => rfl
  | true =>
    exfalso
    simp only [isPySpace, Bool.or_eq_true, beq_iff_eq] at hs
    rcases hs with ((((h1 | h1) | h1) | h1) | h1) | h1 <;> subst h1 <;>
      revert h <;> decide

/-- A list of handle characters has no leading whitespace. -/
theorem dropWhile_eq_self_of_handle (l : List Char)
    (h : ∀ c ∈ l, isHandleChar c = true) : l.dropWhile isPySpace = l := by
  cases l with
  | nil => rfl
  | cons c t =>
    have hc := handle_not_space c (h c (by simp))
    simp [List.dropWhile_cons, hc]

/-- `strip` fixes a list of handle characters. -/
theorem pyStripL_eq_self_of_handle (l : List Char)
    (h : ∀ c ∈ l, isHandleChar c = true) : pyStripL l = l := by
  simp only [pyStripL]
  rw [dropWhile_eq_self_of_handle l h,
    dropWhile_eq_self_of_handle l.reverse (fun c hc => h c (List.mem_reverse.mp hc)),
    List.reverse_reverse]

/-- `strip` fixes a valid seller handle. -/
theorem pyStripS_eq_self_of_fullmatch (s : String) (h : fullmatchHandle s = true) :
    pyStripS s = s := by
  simp only [fullmatchHandle, Bool.and_eq_true, List.all_eq_true] at h
  simp only [pyStripS]
  rw [pyStripL_eq_self_of_handle s.toList (fun c hc => h.1.1 c hc)]
  rfl

-- --- Lemmas about deduplication ---

/-- `dedupAux` selects a subsequence of its input. -/
theorem dedupAux_sublist (seen : List (String × String)) (l : List Listing) :
    (dedupAux seen l).Sublist l := by
  induction l generalizing seen with
  | nil => simp [dedupAux]
  | cons x xs ih =>
    simp only [dedupAux]
    split
    · exact (ih seen).cons x
    · exact (ih _).cons₂ x

/-- The occurrences of key `k` surviving `dedupAux`: none when `k` was already
seen, otherwise exactly the first input listing carrying `k`. -/
theorem dedupAux_filter (k : String × String) (l : List Listing) :
    ∀ seen, (dedupAux seen l).filter (fun x => decide (dedupKey x = k)) =
      if k ∈ seen then []
      else (l.find? (fun x => decide (dedupKey x = k))).toList := by
  induction l with
  | nil => intro seen; simp [dedupAux]
  | cons x xs ih =>
    intro seen
    simp only [dedupAux]
    by_cases hx : dedupKey x ∈ seen
    · rw [if_pos hx, ih seen]
      by_cases hk : k ∈ seen
      · simp [hk]
      · have hne : dedupKey x ≠ k := fun he => hk (he ▸ hx)
        rw [if_neg hk, if_neg hk, List.find?_cons]
        simp [hne]
    · rw [if_neg hx, List.filter_cons]
      by_cases hxk : dedupKey x = k
      · subst hxk
        rw [ih (dedupKey x :: seen)]
        simp [hx, List.find?_cons]
      · rw [ih (dedupKey x :: seen), List.find?_cons]
        have hkx : k ≠ dedupKey x := fun he => hxk he.symm
        by_cases hk : k ∈ seen <;> simp [hxk, hkx, hk]

/-- Membership survives deduplication backwards. -/
theorem mem_of_mem_deduplicate {x : Listing} {l : List Listing}
    (h : x ∈ deduplicate_listings l) : x ∈ l :=
  (dedupAux_sublist [] l).subset h

/-- C5: deduplication keeps exactly one listing per distinct
(lowercased seller, link) key — the first-encountered one — discards later
duplicates, and preserves the relative order of the kept listings (the
output is a subsequence of the input; filtering the output by any key yields
exactly the first input occurrence of that key). -/
theorem C5_deduplicate_spec (l : List Listing) :
    (deduplicate_listings l).Sublist l ∧
    ∀ k : String × String,
      (deduplicate_listings l).filter (fun x => decide (dedupKey x = k)) =
        (l.find? (fun x => decide (dedupKey x = k))).toList := by
  refine ⟨dedupAux_sublist [] l, fun k => ?_⟩
  rw [deduplicate_listings, dedupAux_filter]
  simp

-- --- C4: fail-closed probe semantics ---

/-- C4: for every network behaviour and address, the mailbox probe returns
`true` exactly when the domain is supported, the MX resolution succeeds with
at least one exchange host, and the SMTP conversation with the first host
completes cleanly with the recipient-check command returning status code
250; any other status code and any DNS/connection/timeout/protocol exception
at any step yields `false` (the probe is a total boolean function — it never
raises). -/
theorem C4_probe_iff_rcpt_250 (net : Network) (email : String) :
    check_mailbox_exists net email = true ↔
      is_supported_domain email = true ∧
      ∃ localPart domain, splitFirstAt email = some (localPart, domain) ∧
        ∃ mx rest, net.resolveMX domain = some (mx :: rest) ∧
          net.session mx email = SmtpOutcome.code 250 := by
  constructor
  · intro h
    rw [check_mailbox_exists] at h
    split at h
    case isTrue hsup =>
      refine ⟨hsup, ?_⟩
      split at h
      · simp at h
      · rename_i lp dom hsplit
        refine ⟨lp, dom, hsplit, ?_⟩
        split at h
        · simp at h
        · simp at h
        · rename_i mx rest hres
          refine ⟨mx, rest, hres, ?_⟩
          split at h
          · simp at h
          · rename_i c hses
            have hc : c = 250 := by simpa using h
            rw [hses, hc]
    case isFalse => simp at h
  · rintro ⟨hsup, lp, dom, hsplit, mx, rest, hres, hses⟩
    rw [check_mailbox_exists, if_pos hsup]
    simp [hsplit, hres, hses]

-- --- C6: unsupported domains are rejected without network access ---

/-- The segment after the last `@` of a list ending in `@gmail.com`. -/
theorem takeWhile_reverse_at (p : List Char) :
    ((p ++ '@' :: "gmail.com".toList).reverse.takeWhile (fun c => c != '@')) =
      "gmail.com".toList.reverse := by
  rw [List.reverse_append, List.reverse_cons, List.append_assoc]
  rw [List.takeWhile_append_of_pos (by decide)]
  have : (['@'] ++ p.reverse).takeWhile (fun c => c != '@') = [] := by
    simp [List.takeWhile]
  rw [this, List.append_nil]

/-- An address accepted by `is_supported_domain` has domain `gmail.com`
(in the after-the-last-`@` sense). -/
theorem emailDomain_of_supported (email : String)
    (h : is_supported_domain email = true) : emailDomain email = some "gmail.com" := by
  simp only [is_supported_domain, COMMON_EMAIL_DOMAINS, List.any_cons,
    List.any_nil, Bool.or_false] at h
  rw [pyEndsWith] at h
  rw [List.isSuffixOf_iff_suffix] at h
  obtain ⟨p, hp⟩ := h
  have hsplit : email.toList = p ++ '@' :: "gmail.com".toList := by
    rw [← hp]; rfl
  rw [emailDomain, hsplit]
  rw [if_pos (by simp)]
  rw [takeWhile_reverse_at, List.reverse_reverse]
  rfl

/-- C6: the mailbox probe returns `false` for every address whose domain
(the part after the last `@`, absent when there is no `@`) is not in the
configured allow-list, independently of the behaviour of the DNS and SMTP
layers — i.e. without any network I/O. -/
theorem C6_unsupported_no_network (email : String)
    (h : ∀ d, emailDomain email = some d → d ∉ COMMON_EMAIL_DOMAINS) :
    ∀ net : Network, check_mailbox_exists net email = false := by
  intro net
  have hsup : is_supported_domain email = false := by
    cases hs : is_supported_domain email with
    | false => rfl
    | true =>
      exfalso
      exact h "gmail.com" (emailDomain_of_supported email hs)
        (by simp [COMMON_EMAIL_DOMAINS])
  rw [check_mailbox_exists, if_neg (by simp [hsup])]


/-- Witness for C6 at a concrete unsupported address and a fully permissive
network double. -/
theorem C6_unsupported_no_network_witness :
    (∀ d, emailDomain "user@yahoo.com" = some d → d ∉ COMMON_EMAIL_DOMAINS) ∧
      check_mailbox_exists permissiveNet "user@yahoo.com" = false := by
  have hd : ∀ d, emailDomain "user@yahoo.com" = some d → d ∉ COMMON_EMAIL_DOMAINS := by
    intro d hd
    have : d = "yahoo.com" := by
      have he : emailDomain "user@yahoo.com" = some "yahoo.com" := by decide
      rw [he] at hd
      exact (Option.some.injEq _ _ ▸ hd).symm
    rw [this]
    decide
  exact ⟨hd, C6_unsupported_no_network "user@yahoo.com" hd permissiveNet⟩

-- --- C1: caching behaviour of verify ---


/-- C1 counterexample: for an address whose first probe fails, the first
`verify` call performs a probe, caches nothing (state unchanged), and the
second call for the same address performs a second probe instead of being
answered from the cache — refuting "at most one network probe (whatever the
first call's outcome)". -/
theorem C1_second_call_probes_again :
    verify deadNet ⟨[], []⟩ "user123@gmail.com" = (false, ⟨[], []⟩, 1) ∧
      (verify deadNet
        (verify deadNet ⟨[], []⟩ "user123@gmail.com").2.1
        "user123@gmail.com").2.2 = 1 := by
  constructor
  · rfl
  · rfl

/-- C1 amended: when the first `verify` call returns `true` (cache hit or
successful probe), the second call for the same address is answered from the
cache — it performs zero probes and returns `true`.  (A first call returning
`false` is not cached and probes again, as the counterexample shows.) -/
theorem C1_cache_hit_after_true (net : Network) (st : VerifierState)
    (email : String) (h : (verify net st email).1 = true) :
    (verify net (verify net st email).2.1 email).2.2 = 0 ∧
      (verify net (verify net st email).2.1 email).1 = true := by
  by_cases hm : normalizeEmail email ∈ st.valid_emails
  · simp [verify, hm]
  · rw [verify, if_neg hm] at h
    cases hc : check_mailbox_exists net (normalizeEmail email) with
    | false => rw [hc] at h; simp at h
    | true => simp [verify, hm, hc]

/-- Witness for C1 amended: a fully accepting network, an empty cache and a
supported address; the first call returns `true` and the second performs no
probe. -/
theorem C1_cache_hit_after_true_witness :
    (verify permissiveNet ⟨[], []⟩ "abcd@gmail.com").1 = true ∧
      ((verify permissiveNet
          (verify permissiveNet ⟨[], []⟩ "abcd@gmail.com").2.1
          "abcd@gmail.com").2.2 = 0 ∧
        (verify permissiveNet
          (verify permissiveNet ⟨[], []⟩ "abcd@gmail.com").2.1
          "abcd@gmail.com").1 = true) :=
  ⟨by decide, C1_cache_hit_after_true permissiveNet ⟨[], []⟩ "abcd@gmail.com"
    (by decide)⟩

-- --- C9: semaphore bound on concurrent probes ---

/-- Exchange law for counting under a point update. -/
theorem countP_set_exchange {α : Type} (p : α → Bool) :
    ∀ (l : List α) (i : Nat) (a b : α), l.get? i = some a →
      (l.set i b).countP p + (if p a then 1 else 0) =
        l.countP p + (if p b then 1 else 0) := by
  intro l
  induction l with
  | nil => intro i a b h; simp at h
  | cons c t ih =>
    intro i a b h
    cases i with
    | zero =>
      simp only [List.get?] at h
      cases h
      simp only [List.set, List.countP_cons]
      omega
    | succ j =>
      simp only [List.get?] at h
      simp only [List.set, List.countP_cons]
      have := ih j a b h
      omega

/-- Entering the network phase increments the in-network count. -/
theorem networkCount_acquire (ph : List ProbePhase) (i : Nat)
    (h : ph.get? i = some ProbePhase.waiting) :
    networkCount (ph.set i ProbePhase.network) = networkCount ph + 1 := by
  have hx := countP_set_exchange (fun p => p == ProbePhase.network) ph i
    ProbePhase.waiting ProbePhase.network h
  have e1 : ((ProbePhase.waiting == ProbePhase.network) : Bool) = false := rfl
  have e2 : ((ProbePhase.network == ProbePhase.network) : Bool) = true := rfl
  simp only [e1, e2] at hx
  simp only [networkCount]
  simp at hx
  omega

/-- Leaving the network phase decrements the in-network count. -/
theorem networkCount_release (ph : List ProbePhase) (i : Nat)
    (h : ph.get? i = some ProbePhase.network) :
    networkCount (ph.set i ProbePhase.done) + 1 = networkCount ph := by
  have hx := countP_set_exchange (fun p => p == ProbePhase.network) ph i
    ProbePhase.network ProbePhase.done h
  have e1 : ((ProbePhase.network == ProbePhase.network) : Bool) = true := rfl
  have e2 : ((ProbePhase.done == ProbePhase.network) : Bool) = false := rfl
  simp only [e1, e2] at hx
  simp only [networkCount]
  simp at hx
  omega

/-- A cache hit never touches the in-network count. -/
theorem networkCount_cacheHit (ph : List ProbePhase) (i : Nat)
    (h : ph.get? i = some ProbePhase.waiting) :
    networkCount (ph.set i ProbePhase.done) = networkCount ph := by
  have hx := countP_set_exchange (fun p => p == ProbePhase.network) ph i
    ProbePhase.waiting ProbePhase.done h
  have e1 : ((ProbePhase.waiting == ProbePhase.network) : Bool) = false := rfl
  have e2 : ((ProbePhase.done == ProbePhase.network) : Bool) = false := rfl
  simp only [e1, e2] at hx
  simp only [networkCount]
  simp at hx
  omega

/-- C9: under the interleaving semantics of a batch of `verify` tasks
gated by `asyncio.Semaphore(limit)`, every reachable state of a batch of
`n > limit` tasks has at most `limit` probes in their network phase
simultaneously. -/
theorem C9_semaphore_bound (limit n : Nat) (phases : List ProbePhase)
    (_hn : limit < n) (h : BatchReachable limit n phases) :
    networkCount phases ≤ limit := by
  induction h with
  | init =>
    rw [networkCount, List.countP_replicate]
    simp
  | step hr hs ih =>
    cases hs with
    | acquire i hget hc =>
      rw [networkCount_acquire _ i hget]
      omega
    | release i hget =>
      have := networkCount_release _ i hget
      omega
    | cacheHit i hget =>
      rw [networkCount_cacheHit _ i hget]
      exact ih

/-- Witness for C9: with capacity 1 and a batch of 2 tasks, the state where
the first task holds the semaphore slot is reachable, and its in-network
count is at most 1. -/
theorem C9_semaphore_bound_witness :
    1 < 2 ∧ networkCount [ProbePhase.network, ProbePhase.waiting] ≤ 1 :=
  ⟨by decide,
    C9_semaphore_bound 1 2 [ProbePhase.network, ProbePhase.waiting]
      (by decide)
      (BatchReachable.step BatchReachable.init
        (BatchStep.acquire (List.replicate 2 ProbePhase.waiting) 0
          (by decide) (by decide)))⟩

-- --- C8: one record per listing, in input order ---

/-- C8: for every network behaviour, initial cache state, and event-loop
completion order of the scheduled probes, `verify_all` returns exactly one
record per input listing, and the i-th output record carries the i-th input
listing and its derived email — the output preserves the input listing
order regardless of probe completion order. -/
theorem C8_verify_all_order (net : Network) (st : VerifierState)
    (schedule : List Nat) (listings : List Listing) :
    (verify_all net st schedule listings).1.length = listings.length ∧
    ∀ i, i < listings.length →
      ((verify_all net st schedule listings).1.getD i default).listing =
          listings.getD i default ∧
      ((verify_all net st schedule listings).1.getD i default).email =
          (listings.getD i default).email := by
  constructor
  · simp [verify_all]
  · intro i hi
    simp only [verify_all]
    rw [List.getD_eq_getElem?_getD, List.getElem?_map, List.getElem?_range hi]
    simp



/-- Witness for C8 at a one-listing batch, schedule `[0]`, index 0. -/
theorem C8_verify_all_order_witness :
    0 < [sampleListingA].length ∧
      ((verify_all permissiveNet ⟨[], []⟩ [0] [sampleListingA]).1.getD 0
          default).listing = [sampleListingA].getD 0 default :=
  ⟨by decide,
    ((C8_verify_all_order permissiveNet ⟨[], []⟩ [0] [sampleListingA]).2 0
      (by decide)).1⟩

-- --- C10: deduplication keys on (seller lowercased, link), not on email ---

/-- C10: deduplication keys on the (lowercased seller, link) pair only and
never on the derived email: for an input of two listings with the same
seller but different links, both survive deduplication, their derived
emails coincide, and the batch output of `verify_all` carries the same
email in two distinct records. -/
theorem C10_dedup_not_by_email :
    deduplicate_listings [sampleListingA, sampleListingB] =
        [sampleListingA, sampleListingB] ∧
      sampleListingA ≠ sampleListingB ∧
      sampleListingA.email = sampleListingB.email ∧
      (verify_all permissiveNet ⟨[], []⟩ [0, 1]
          [sampleListingA, sampleListingB]).1.map (fun r => r.email) =
        ["bob_1@gmail.com", "bob_1@gmail.com"] := by
  refine ⟨?_, ?_, ?_, ?_⟩ <;> decide

-- --- C2: fallback behaviour of parse ---

/-- C2 counterexample: on input that decodes successfully to a JSON object
whose member value is not an object (Python `{"a": 5}`), `parse` raises
(`AttributeError` from `item.get`, which only `json.JSONDecodeError` handling
would have caught) instead of falling back to block parsing. -/
theorem C2_parse_raises_on_nondict_item :
    parse (some (Json.obj [("a", Json.num 5)])) "whatever" = .error () := rfl

/-- C2 amended: when structured decoding fails (`json.JSONDecodeError`), or
decoding succeeds and item interpretation completes with zero accepted
items, `parse` falls back to block-format parsing on the cleaned content and
labels the result "G6 Parser".  (When decoding succeeds but an item value is
not an object — or a field is a truthy non-string — `parse` raises instead,
as the counterexample shows.) -/
theorem C2_fallback_to_blocks (decoded : Option Json) (content : String)
    (h : decoded = none ∨
      ∃ j, decoded = some j ∧ parse_carousell_json j = .ok []) :
    parse decoded content =
      .ok (deduplicate_listings (parse_carousell_blocks (cleanContent content)),
        "G6 Parser") := by
  rcases h with h | ⟨j, hj, hempty⟩
  · rw [h, parse]
  · rw [hj, parse, hempty]
    rfl

/-- Witness for C2 amended: a failed decode over empty content. -/
theorem C2_fallback_to_blocks_witness :
    ((none : Option Json) = none ∨
        ∃ j, (none : Option Json) = some j ∧ parse_carousell_json j = .ok []) ∧
      parse none "" =
        .ok (deduplicate_listings (parse_carousell_blocks (cleanContent "")),
          "G6 Parser") :=
  ⟨Or.inl rfl, C2_fallback_to_blocks none "" (Or.inl rfl)⟩

-- --- C7: the single-line example block ---





set_option maxRecDepth 100000 in
/-- C7 counterexample: on the single-line block exactly as the specification
writes it, `parse` produces one listing with the claimed photo, link and
seller, but the `(.+)` groups of the title and price patterns run to the end
of the line, so the title is not "Lamp" and the price is not "$10". -/
theorem C7_single_line_runs_to_eol :
    parse none c7SingleLine =
      .ok ([⟨"https://media.karousell.com/img1.jpg", c7TitleTail, c7PriceTail,
        "https://x.test/1", "alice_99"⟩], "G6 Parser") ∧
      c7TitleTail ≠ "Lamp" ∧ c7PriceTail ≠ "$10" := by
  refine ⟨rfl, ?_, ?_⟩ <;> decide

set_option maxRecDepth 100000 in
/-- C7 amended: with the labelled fields on separate lines, the block parses
to exactly one listing with title "Lamp", price "$10", link
"https://x.test/1", seller "alice_99" and photo
"https://media.karousell.com/img1.jpg". -/
theorem C7_multi_line_parses_exactly :
    parse none c7MultiLine =
      .ok ([⟨"https://media.karousell.com/img1.jpg", "Lamp", "$10",
        "https://x.test/1", "alice_99"⟩], "G6 Parser") := rfl

-- --- Lemmas for C3 ---

/-- A valid handle is non-empty. -/
theorem fullmatch_ne_empty (s : String) (h : fullmatchHandle s = true) :
    s ≠ "" := by
  intro he
  rw [he] at h
  revert h
  decide

/-- A valid handle stripped is non-empty. -/
theorem fullmatch_strip_ne_empty (s : String) (h : fullmatchHandle s = true) :
    pyStripS s ≠ "" := by
  rw [pyStripS_eq_self_of_fullmatch s h]
  exact fullmatch_ne_empty s h

/-- An already-stripped extract is a fixed point of `strip`. -/
theorem strip_of_stripped (g : List Char) :
    pyStripS ⟨pyStripL g⟩ = ⟨pyStripL g⟩ := by
  simp only [pyStripS]
  rw [show (⟨pyStripL g⟩ : String).toList = pyStripL g from rfl, pyStripL_idem]

/-- A string built from a non-empty character list is non-empty. -/
theorem mk_ne_empty_of_ne_nil (p : List Char) (h : p ≠ []) :
    (⟨p⟩ : String) ≠ "" := by
  intro he
  apply h
  have hd : (⟨p⟩ : String).data = ("" : String).data := by rw [he]
  simpa using hd

/-- Properties of a truthy field extracted by `extract_value`: the stored
(re-stripped) value is strip-invariant and non-empty. -/
theorem stripped_extract_props (o : Option (List Char)) (x : List Char)
    (heq : o.map pyStripL = some x) (hne : x.isEmpty = false) :
    pyStripS ⟨pyStripL x⟩ = ⟨pyStripL x⟩ ∧ (⟨pyStripL x⟩ : String) ≠ "" := by
  obtain ⟨g, hg, hpg⟩ := Option.map_eq_some'.mp heq
  have hx : pyStripL x = x := by
    rw [← hpg]
    exact pyStripL_idem g
  refine ⟨strip_of_stripped x, ?_⟩
  apply mk_ne_empty_of_ne_nil
  rw [hx]
  intro he
  rw [he] at hne
  simp at hne

/-- Field invariants of a listing produced from a block: valid seller and
all five fields non-empty after trimming. -/
theorem build_listing_fields (block : List Char) (l : Listing)
    (h : build_listing_from_block block = some l) :
    fullmatchHandle l.seller = true ∧
      pyStripS l.photo ≠ "" ∧ pyStripS l.title ≠ "" ∧ pyStripS l.price ≠ "" ∧
        pyStripS l.link ≠ "" ∧ pyStripS l.seller ≠ "" := by
  simp only [build_listing_from_block] at h
  split at h
  · rename_i p t pr lk s hp ht hpr hlk hs
    split at h
    · rename_i hcond
      simp only [Bool.and_eq_true, Bool.not_eq_true'] at hcond
      obtain ⟨⟨⟨⟨⟨hp1, ht1⟩, hpr1⟩, hlk1⟩, hs1⟩, hvs⟩ := hcond
      simp only [Except.ok.injEq, Option.some.injEq] at h
      subst h
      simp only [is_valid_seller, Bool.and_eq_true] at hvs
      have hfm : fullmatchHandle ⟨s⟩ = true := hvs.2
      have hsfix : (⟨pyStripL s⟩ : String) = ⟨s⟩ :=
        pyStripS_eq_self_of_fullmatch ⟨s⟩ hfm
      refine ⟨?_, ?_, ?_, ?_, ?_, ?_⟩
      · show fullmatchHandle ⟨pyStripL s⟩ = true
        rw [hsfix]
        exact hfm
      · show pyStripS ⟨pyStripL p⟩ ≠ ""
        have := stripped_extract_props _ p hp hp1
        rw [this.1]
        exact this.2
      · show pyStripS ⟨pyStripL t⟩ ≠ ""
        have := stripped_extract_props _ t ht ht1
        rw [this.1]
        exact this.2
      · show pyStripS ⟨pyStripL pr⟩ ≠ ""
        have := stripped_extract_props _ pr hpr hpr1
        rw [this.1]
        exact this.2
      · show pyStripS ⟨pyStripL lk⟩ ≠ ""
        have := stripped_extract_props _ lk hlk hlk1
        rw [this.1]
        exact this.2
      · show pyStripS ⟨pyStripL s⟩ ≠ ""
        rw [hsfix]
        exact fullmatch_strip_ne_empty ⟨s⟩ hfm
    · simp at h
  · simp at h

/-- Field invariants of every listing of the block path. -/
theorem parse_blocks_props (content : List Char) (l : Listing)
    (h : l ∈ parse_carousell_blocks content) :
    fullmatchHandle l.seller = true ∧
      pyStripS l.photo ≠ "" ∧ pyStripS l.title ≠ "" ∧ pyStripS l.price ≠ "" ∧
        pyStripS l.link ≠ "" ∧ pyStripS l.seller ≠ "" := by
  rw [parse_carousell_blocks, List.mem_filterMap] at h
  obtain ⟨block, _hmem, hb⟩ := h
  split at hb
  · simp at hb
  · exact build_listing_fields _ l hb

/-- Inversion of a passed JSON seller check: the field is a string that
matches the handle pattern. -/
theorem is_valid_seller_json_ok_true (o : Option Json)
    (h : is_valid_seller_json o = .ok true) :
    ∃ s, o = some (Json.str s) ∧ fullmatchHandle s = true := by
  cases o with
  | none => simp [is_valid_seller_json] at h
  | some v =>
    cases v with
    | str s =>
      change (if jsonTruthy (Json.str s) = true then
          Except.ok (fullmatchHandle s) else Except.ok false) = Except.ok true at h
      split at h
      · exact ⟨s, rfl, by simpa using h⟩
      · simp at h
    | null =>
      change (if jsonTruthy Json.null = true then
          (Except.error () : Except Unit Bool) else Except.ok false) = Except.ok true at h
      split at h <;> simp at h
    | bool b =>
      change (if jsonTruthy (Json.bool b) = true then
          (Except.error () : Except Unit Bool) else Except.ok false) = Except.ok true at h
      split at h <;> simp at h
    | num n =>
      change (if jsonTruthy (Json.num n) = true then
          (Except.error () : Except Unit Bool) else Except.ok false) = Except.ok true at h
      split at h <;> simp at h
    | arr a =>
      change (if jsonTruthy (Json.arr a) = true then
          (Except.error () : Except Unit Bool) else Except.ok false) = Except.ok true at h
      split at h <;> simp at h
    | obj kvs =>
      change (if jsonTruthy (Json.obj kvs) = true then
          (Except.error () : Except Unit Bool) else Except.ok false) = Except.ok true at h
      split at h <;> simp at h

/-- Every listing accepted by the JSON path stores a seller that matches the
handle pattern. -/
theorem parseItems_seller_valid :
    ∀ (items : List Json) (ls : List Listing), parseItems items = .ok ls →
      ∀ l ∈ ls, fullmatchHandle l.seller = true := by
  intro items
  induction items with
  | nil =>
    intro ls h l hl
    rw [parseItems] at h
    simp only [Except.ok.injEq] at h
    subst h
    simp at hl
  | cons item rest ih =>
    intro ls h l hl
    rw [parseItems] at h
    split at h
    · simp at h
    · rename_i sellerField hgSeller
      split at h
      · simp at h
      · exact ih ls h l hl
      · rename_i hvalid
        split at h
        · rename_i photoF linkF titleF priceF hgP hgL hgT hgPr
          split at h
          · split at h
            · simp at h
            · rename_i photoStr hasPhoto
              split at h
              · simp at h
              · rename_i titleStr hasTitle
                split at h
                · simp at h
                · rename_i linkStr hasLink
                  split at h
                  · simp at h
                  · rename_i sellerStr hasSeller
                    split at h
                    · simp at h
                    · rename_i tail htail
                      simp only [Except.ok.injEq] at h
                      subst h
                      rcases List.mem_cons.mp hl with hl | hl
                      · subst hl
                        obtain ⟨s0, hs0, hfm⟩ :=
                          is_valid_seller_json_ok_true sellerField hvalid
                        rw [hs0] at hasSeller
                        simp only [pyAsString, Except.ok.injEq] at hasSeller
                        show fullmatchHandle (pyStripS sellerStr) = true
                        rw [← hasSeller, pyStripS_eq_self_of_fullmatch s0 hfm]
                        exact hfm
                      · exact ih tail htail l hl
          · exact ih ls h l hl
        · simp at h
        · simp at h
        · simp at h
        · simp at h

/-- C3 amended: every listing returned by `parse` (either path) has a seller
matching the handle pattern `[A-Za-z0-9_.-]{4,30}`; on the block path
("G6 Parser") all five fields are additionally non-empty after trimming.
(On the structured path the four non-seller fields are only checked for
truthiness before stripping, so a whitespace-only field is stored as the
empty string, as the counterexample shows.) -/
theorem C3_parse_field_invariant (decoded : Option Json) (content : String)
    (ls : List Listing) (label : String)
    (h : parse decoded content = .ok (ls, label)) :
    ∀ l ∈ ls, fullmatchHandle l.seller = true ∧
      (label = "G6 Parser" →
        pyStripS l.photo ≠ "" ∧ pyStripS l.title ≠ "" ∧ pyStripS l.price ≠ "" ∧
          pyStripS l.link ≠ "" ∧ pyStripS l.seller ≠ "") := by
  intro l hl
  cases decoded with
  | none =>
    rw [parse] at h
    simp only [Except.ok.injEq, Prod.mk.injEq] at h
    obtain ⟨hls, hlabel⟩ := h
    subst hls
    subst hlabel
    have hprops := parse_blocks_props (cleanContent content) l
      (mem_of_mem_deduplicate hl)
    exact ⟨hprops.1, fun _ => hprops.2⟩
  | some j =>
    rw [parse] at h
    split at h
    · simp at h
    · rename_i listings hpj
      split at h
      · simp only [Except.ok.injEq, Prod.mk.injEq] at h
        obtain ⟨hls, hlabel⟩ := h
        subst hls
        subst hlabel
        have hprops := parse_blocks_props (cleanContent content) l
          (mem_of_mem_deduplicate hl)
        exact ⟨hprops.1, fun _ => hprops.2⟩
      · simp only [Except.ok.injEq, Prod.mk.injEq] at h
        obtain ⟨hls, hlabel⟩ := h
        subst hls
        subst hlabel
        constructor
        · rw [parse_carousell_json] at hpj
          split at hpj
          · simp at hpj
          · rename_i items hv
            exact parseItems_seller_valid items listings hpj l
              (mem_of_mem_deduplicate hl)
        · intro habs
          exact absurd habs (by decide)


/-- C3 counterexample: a structured item whose `img_url` is a single space
passes the truthiness check (truthiness is tested before stripping) and is
stored with `photo` equal to the empty string — so the returned listing
violates "all five fields non-empty after trimming". -/
theorem C3_whitespace_field_cex :
    parse (some c3BadInput) "x" =
      .ok ([⟨"", "tt", "5", "https://x.test/ln", "abcd"⟩], "Atom Parser") ∧
      pyStripS (Listing.mk "" "tt" "5" "https://x.test/ln" "abcd").photo = "" :=
  ⟨rfl, rfl⟩



set_option maxRecDepth 100000 in
/-- Witness for C3 amended on a concrete block-format input. -/
theorem C3_parse_field_invariant_witness :
    parse none c3WitnessInput = .ok ([c3WitnessListing], "G6 Parser") ∧
      (fullmatchHandle c3WitnessListing.seller = true ∧
        ("G6 Parser" = "G6 Parser" →
          pyStripS c3WitnessListing.photo ≠ "" ∧
            pyStripS c3WitnessListing.title ≠ "" ∧
            pyStripS c3WitnessListing.price ≠ "" ∧
            pyStripS c3WitnessListing.link ≠ "" ∧
            pyStripS c3WitnessListing.seller ≠ "")) :=
  ⟨rfl, C3_parse_field_invariant none c3WitnessInput [c3WitnessListing]
    "G6 Parser" rfl c3WitnessListing (List.mem_singleton.mpr rfl)⟩
